import Mathlib

/-!
# gost: webhook-triggered deployment pipeline

A shallow embedding of `gost.go`: the HTTP handler registered in `main`, together with
`rpcCommand` and `runCommand`.  The outside world (JSON decoding of the form value, the
RPC dial and call, the subprocess run, `runtime.GOOS`) is an explicit `World` value whose
answers may depend on everything that was called before in the same request.  The handler
threads a `State` holding the local variable `succeeded`, the response writer, the log
lines and a record of every `rpcCommand` / `runCommand` invocation with its result.
-/

namespace Gost

/-- A Go `error` value: `none` is `nil`, `some msg` is an error whose `Error()` is `msg`. -/
abbrev GoError := Option String

/-- The anonymous struct that is the value type of `config.Apps`. -/
structure App where
  Proc : String
  Path : String
  UpdateCommand : String
  BuildCommand : String
  TestCommand : String
  ReleaseCommand : String
deriving DecidableEq, Repr

/-- The `config` struct; the Go map `Apps` is a finite partial function on strings. -/
structure config where
  Addr : String
  Root : String
  RPC : String
  Apps : String → Option App

/-- The `payload` struct, flattened to its two `name` fields. -/
structure payload where
  PusherName : String
  RepositoryName : String
deriving DecidableEq, Repr

/-- One invocation of a helper function by the handler, with its arguments. -/
inductive Call where
  | rpcCommand (server cmd proc : String)
  | runCommand (name dir command : String)
deriving DecidableEq, Repr

/-- An invocation together with the error it returned. -/
abbrev Record := Call × GoError

/-- The environment of one request.  Every answer is a function of the invocations
completed so far in the request and of the arguments of the primitive. -/
structure World where
  /-- The result of `json.Unmarshal([]byte(s), &p)`: `none` when it returns an error. -/
  unmarshal : String → Option payload
  /-- The error of `rpc.Dial("tcp", server)`. -/
  dial : List Record → String → GoError
  /-- The error of `client.Call(method, proc, &ret)`. -/
  call : List Record → String → String → GoError
  /-- The error of `cmd.Run()` for the argument vector run in directory `dir`. -/
  run : List Record → String → List String → GoError
  /-- Whether `runtime.GOOS == "windows"`. -/
  windows : Bool

/-- The handler's mutable data: the local `succeeded`, the `http.ResponseWriter`
(`status` is `none` until the header is written), the log and the invocation record. -/
structure State where
  succeeded : Bool
  status : Option Nat
  body : String
  logs : List String
  calls : List Record
deriving DecidableEq, Repr

/-- The state at the start of the handler. -/
def State.init : State :=
  { succeeded := false, status := none, body := "", logs := [], calls := [] }

/-- The call `log.Printf` with the already formatted line. -/
def logPrintf (s : State) (line : String) : State :=
  { s with logs := s.logs ++ [line] }

/-- The method `ResponseWriter.WriteHeader`: only the first call takes effect. -/
def writeHeader (s : State) (code : Nat) : State :=
  match s.status with
  | none => { s with status := some code }
  | some _ => s

/-- The method `ResponseWriter.Write`: writes the header with status 200 when none was
written yet, then appends to the body. -/
def write (s : State) (data : String) : State :=
  let s1 := writeHeader s 200
  { s1 with body := s1.body ++ data }

/-- The library function `http.Error`: `w.WriteHeader(code)` then `fmt.Fprintln(w, error)`,
which ends the line with a newline.  The headers it sets are not part of `State`. -/
def httpError (s : State) (error : String) (code : Nat) : State :=
  write (writeHeader s code) (error ++ "\n")

/-- The response the server sends once the handler returns: status 200 when the handler
never wrote a header. -/
def response (s : State) : Nat × String :=
  (s.status.getD 200, s.body)

/-- The function `rpcCommand(server, cmd, proc)`: the dial, then the `switch` on `cmd`.
The invocation and the error it returns are appended to `calls`. -/
def rpcCommand (W : World) (s : State) (server cmd proc : String) : GoError × State :=
  let err : GoError :=
    match W.dial s.calls server with
    | some e => some e
    | none =>
      if cmd = "start" then W.call s.calls "Goreman.Start" proc
      else if cmd = "stop" then W.call s.calls "Goreman.Stop" proc
      else if cmd = "restart" then W.call s.calls "Goreman.Restart" proc
      else some "Unknown command"
  (err, { s with calls := s.calls ++ [(Call.rpcCommand server cmd proc, err)] })

/-- The function `runCommand(name, dir, command)`: a subprocess is run only for a
non-empty command.  The invocation and the error it returns are appended to `calls`. -/
def runCommand (W : World) (s : State) (name dir command : String) : GoError × State :=
  let err : GoError :=
    if command ≠ "" then
      let cs := if W.windows then ["cmd", "/c", command] else ["/bin/bash", "-c", command]
      W.run s.calls dir cs
    else none
  (err, { s with calls := s.calls ++ [(Call.runCommand name dir command, err)] })

/-- The local `updateCommand` of the handler. -/
def updateCommand (app : App) : String :=
  if app.UpdateCommand = "" then "git pull origin master" else app.UpdateCommand

/-- The local slice `commands` of the handler: `(task, command)` pairs. -/
def commands (app : App) : List (String × String) :=
  [("update", updateCommand app), ("build", app.BuildCommand),
   ("test", app.TestCommand), ("release", app.ReleaseCommand)]

/-- The loop `for _, command := range commands` of the handler, with its `break`. -/
def runStages (W : World) (name path : String) : List (String × String) → State → State
  | [], s => s
  | (task, command) :: rest, s =>
    if command ≠ "" then
      let s1 := logPrintf s (name ++ ": " ++ command ++ "\n")
      match runCommand W s1 name path command with
      | (some e, s2) =>
        let s3 := logPrintf s2 (name ++ ": " ++ task ++ " (" ++ e ++ ")\n")
        httpError s3 ("Failed to " ++ task) 400
      | (none, s2) => runStages W name path rest { s2 with succeeded := true }
    else runStages W name path rest s

/-- The final statement of the handler: `if succeeded ... fmt.Fprintf(w, "OK")`. -/
def writeOK (s : State) : State :=
  if s.succeeded then write s "OK" else s

/-- The handler from the stage loop to its end: the loop, the `start` bracket and the
final write. -/
def afterStop (c : config) (W : World) (name : String) (app : App) (s : State) : State :=
  let s1 := runStages W name app.Path (commands app) s
  let s2 :=
    if c.RPC ≠ "" ∧ app.Proc ≠ "" then
      match rpcCommand W s1 c.RPC "start" app.Proc with
      | (some e, s') => logPrintf s' (name ++ ": " ++ e ++ "\n")
      | (none, s') => s'
    else s1
  writeOK s2

/-- The closure passed to `http.HandleFunc`, run on the form value `payload` of the
request; the result is the state when the handler returns. -/
def handler (c : config) (W : World) (formValue : String) : State :=
  let s0 := State.init
  match W.unmarshal formValue with
  | none => writeOK s0
  | some p =>
    let name := p.RepositoryName
    match c.Apps name with
    | none => writeOK s0
    | some app =>
      if c.RPC ≠ "" ∧ app.Proc ≠ "" then
        match rpcCommand W s0 c.RPC "stop" app.Proc with
        | (some e, s1) => logPrintf s1 (name ++ ": " ++ e ++ "\n")
        | (none, s1) => afterStop c W name app s1
      else afterStop c W name app s0

/-! ## Observations on the invocation record -/

/-- Whether an invocation is a `runCommand` one. -/
def Call.isRun : Call → Bool
  | Call.runCommand _ _ _ => true
  | Call.rpcCommand _ _ _ => false

/-- The `runCommand` invocations of a record list, in order. -/
def runRecords (l : List Record) : List Record := l.filter (fun r => r.1.isRun)

/-- The `rpcCommand` invocations of a record list, in order. -/
def rpcRecords (l : List Record) : List Record := l.filter (fun r => !r.1.isRun)

/-- The stages of a `commands` slice that the loop attempts: those with a non-empty command. -/
def attempted (cmds : List (String × String)) : List (String × String) :=
  cmds.filter (fun tc => tc.2 ≠ "")

/-- The record of a `runCommand` invocation for a stage that returned `nil`. -/
def okRecord (name path : String) (tc : String × String) : Record :=
  (Call.runCommand name path tc.2, none)

/-- What the stage loop leaves behind: either every attempted stage returned `nil`, or
the stages before the first failing one did and the loop stopped at the failing one. -/
inductive LoopResult (name path : String) (cmds : List (String × String)) (s t : State) : Prop
  | allOk
      (hcalls : t.calls = s.calls ++ (attempted cmds).map (okRecord name path))
      (hsucc : t.succeeded = (s.succeeded || !(attempted cmds).isEmpty))
      (hstatus : t.status = s.status)
      (hbody : t.body = s.body) : LoopResult name path cmds s t
  | failed (ok : List (String × String)) (task command e : String)
      (more : List (String × String))
      (hsplit : attempted cmds = ok ++ (task, command) :: more)
      (hcalls : t.calls = s.calls ++ ok.map (okRecord name path)
          ++ [(Call.runCommand name path command, some e)])
      (hsucc : t.succeeded = (s.succeeded || !ok.isEmpty))
      (hstatus : t.status = some (s.status.getD 400))
      (hbody : t.body = s.body ++ ("Failed to " ++ task ++ "\n")) : LoopResult name path cmds s t

/-- The fail-fast shape of the `runCommand` invocations of a run: the attempted stages
that returned `nil`, in order, and then either nothing more with every attempted stage
run, or the record of the first failing stage and nothing after it. -/
def FailFast (name path : String) (cmds : List (String × String)) (calls : List Record) : Prop :=
  ∃ ok : List (String × String),
    (runRecords calls = ok.map (okRecord name path) ∧ attempted cmds = ok) ∨
    (∃ task command e more,
      runRecords calls = ok.map (okRecord name path) ++ [(Call.runCommand name path command, some e)]
        ∧ attempted cmds = ok ++ (task, command) :: more)

/-- The command strings handed to `runCommand`, in order. -/
def ranCommands (calls : List Record) : List String :=
  calls.filterMap (fun r =>
    match r.1 with
    | Call.runCommand _ _ command => some command
    | Call.rpcCommand _ _ _ => none)

/-- What a run that gets past the `stop` bracket shows at the end of the handler: its
`runCommand` records, the local `succeeded` and the response, in the case where every
attempted stage returned `nil` and in the case where one failed. -/
inductive RunShape (name path : String) (cmds : List (String × String))
    (runs : List Record) (succeeded : Bool) (resp : Nat × String) : Prop
  | allOk
      (hruns : runs = (attempted cmds).map (okRecord name path))
      (hsucc : succeeded = !(attempted cmds).isEmpty)
      (hresp : resp = (200, if (attempted cmds).isEmpty then "" else "OK")) :
      RunShape name path cmds runs succeeded resp
  | failed (ok : List (String × String)) (task command e : String)
      (more : List (String × String))
      (hsplit : attempted cmds = ok ++ (task, command) :: more)
      (hruns : runs = ok.map (okRecord name path)
          ++ [(Call.runCommand name path command, some e)])
      (hsucc : succeeded = !ok.isEmpty)
      (hresp : resp = (400, "Failed to " ++ task ++ "\n" ++ if ok.isEmpty then "" else "OK")) :
      RunShape name path cmds runs succeeded resp

/-! ## Concrete configurations and worlds -/

/-- A push notification body naming the repository `repo`. -/
def payloadText (repo : String) : String :=
  "\x7b\"repository\":\x7b\"name\":\"" ++ repo ++ "\"\x7d\x7d"

/-- A decoder that knows the notifications of three repositories and rejects the rest. -/
def decodeKnown (s : String) : Option payload :=
  (["demo", "web", "bare"].find? (fun n => payloadText n = s)).map
    (fun n => { PusherName := "", RepositoryName := n })

/-- The application `demo`: build `make`, no test, release `make deploy`, no process. -/
def demoApp : App :=
  { Proc := "", Path := "/srv/demo", UpdateCommand := "", BuildCommand := "make",
    TestCommand := "", ReleaseCommand := "make deploy" }

/-- The application `web`: the commands of `demo`, with process name `web`. -/
def webApp : App := { demoApp with Proc := "web" }

/-- The application `bare`: all four configured commands empty. -/
def bareApp : App :=
  { Proc := "web", Path := "/srv/bare", UpdateCommand := "", BuildCommand := "",
    TestCommand := "", ReleaseCommand := "" }

/-- The registry of the three applications. -/
def knownApps (n : String) : Option App :=
  if n = "demo" then some demoApp
  else if n = "web" then some webApp
  else if n = "bare" then some bareApp
  else none

/-- A configuration without controller address. -/
def plainConfig : config := { Addr := ":8080", Root := "/", RPC := "", Apps := knownApps }

/-- A configuration with a controller address. -/
def rpcConfig : config :=
  { Addr := ":8080", Root := "/", RPC := "127.0.0.1:5555", Apps := knownApps }

/-- A world in which every call succeeds. -/
def okWorld : World :=
  { unmarshal := decodeKnown, dial := fun _ _ => none, call := fun _ _ _ => none,
    run := fun _ _ _ => none, windows := false }

/-- A world in which `make` exits with a non-zero status. -/
def buildFails : World :=
  { okWorld with
    run := fun _ _ cs => if cs = ["/bin/bash", "-c", "make"] then some "exit status 2" else none }

/-- A world in which the default update command exits with a non-zero status. -/
def updateFails : World :=
  { okWorld with
    run := fun _ _ cs =>
      if cs = ["/bin/bash", "-c", "git pull origin master"] then some "exit status 1" else none }

/-- A world in which the controller refuses `Goreman.Stop`. -/
def stopFails : World :=
  { okWorld with call := fun _ m _ => if m = "Goreman.Stop" then some "not running" else none }

/-- A world in which the controller refuses `Goreman.Start`. -/
def startFails : World :=
  { okWorld with call := fun _ m _ => if m = "Goreman.Start" then some "already running" else none }

/-- A world whose decoder reads the repository name `Demo` out of every payload. -/
def demoCapitalised : World :=
  { okWorld with unmarshal := fun _ => some (payload.mk "" "Demo") }

/-! ## The helper functions and the response writer, field by field -/

@[simp] theorem runCommand_calls (W : World) (s : State) (n d cmd : String) :
    (runCommand W s n d cmd).2.calls
      = s.calls ++ [(Call.runCommand n d cmd, (runCommand W s n d cmd).1)] := rfl

@[simp] theorem runCommand_succeeded (W : World) (s : State) (n d cmd : String) :
    (runCommand W s n d cmd).2.succeeded = s.succeeded := rfl

@[simp] theorem runCommand_status (W : World) (s : State) (n d cmd : String) :
    (runCommand W s n d cmd).2.status = s.status := rfl

@[simp] theorem runCommand_body (W : World) (s : State) (n d cmd : String) :
    (runCommand W s n d cmd).2.body = s.body := rfl

@[simp] theorem rpcCommand_calls (W : World) (s : State) (srv cmd proc : String) :
    (rpcCommand W s srv cmd proc).2.calls
      = s.calls ++ [(Call.rpcCommand srv cmd proc, (rpcCommand W s srv cmd proc).1)] := rfl

@[simp] theorem rpcCommand_succeeded (W : World) (s : State) (srv cmd proc : String) :
    (rpcCommand W s srv cmd proc).2.succeeded = s.succeeded := rfl

@[simp] theorem rpcCommand_status (W : World) (s : State) (srv cmd proc : String) :
    (rpcCommand W s srv cmd proc).2.status = s.status := rfl

@[simp] theorem rpcCommand_body (W : World) (s : State) (srv cmd proc : String) :
    (rpcCommand W s srv cmd proc).2.body = s.body := rfl

@[simp] theorem logPrintf_calls (s : State) (l : String) : (logPrintf s l).calls = s.calls := rfl
@[simp] theorem logPrintf_succeeded (s : State) (l : String) :
    (logPrintf s l).succeeded = s.succeeded := rfl
@[simp] theorem logPrintf_status (s : State) (l : String) : (logPrintf s l).status = s.status := rfl
@[simp] theorem logPrintf_body (s : State) (l : String) : (logPrintf s l).body = s.body := rfl

@[simp] theorem httpError_calls (s : State) (m : String) (code : Nat) :
    (httpError s m code).calls = s.calls := by
  cases h : s.status <;> simp [httpError, write, writeHeader, h]

@[simp] theorem httpError_succeeded (s : State) (m : String) (code : Nat) :
    (httpError s m code).succeeded = s.succeeded := by
  cases h : s.status <;> simp [httpError, write, writeHeader, h]

@[simp] theorem httpError_status (s : State) (m : String) (code : Nat) :
    (httpError s m code).status = some (s.status.getD code) := by
  cases h : s.status <;> simp [httpError, write, writeHeader, h]

@[simp] theorem httpError_body (s : State) (m : String) (code : Nat) :
    (httpError s m code).body = s.body ++ (m ++ "\n") := by
  cases h : s.status <;> simp [httpError, write, writeHeader, h]

/-! ## The stage loop -/

theorem runStages_result (W : World) (name path : String) :
    ∀ (cmds : List (String × String)) (s : State),
      LoopResult name path cmds s (runStages W name path cmds s) := by
  intro cmds
  induction cmds with
  | nil =>
    intro s
    exact LoopResult.allOk (by simp [runStages, attempted]) (by simp [runStages, attempted]) rfl rfl
  | cons tc rest ih =>
    intro s
    obtain ⟨task, command⟩ := tc
    by_cases hc : command = ""
    · have h := ih s
      simp only [runStages, hc, ne_eq, not_true_eq_false, if_false]
      cases h with
      | allOk h1 h2 h3 h4 =>
        exact LoopResult.allOk (by simpa [attempted, hc] using h1)
          (by simpa [attempted, hc] using h2) h3 h4
      | failed ok t c e more h0 h1 h2 h3 h4 =>
        exact LoopResult.failed ok t c e more (by simpa [attempted, hc] using h0) h1 h2 h3 h4
    · have hatt : attempted ((task, command) :: rest) = (task, command) :: attempted rest := by
        simp [attempted, hc]
      simp only [runStages, ne_eq, hc, not_false_eq_true, if_true]
      rcases hr : runCommand W (logPrintf s (name ++ ": " ++ command ++ "\n")) name path command
        with ⟨err, s2⟩
      have hs2 : s2 = (runCommand W (logPrintf s (name ++ ": " ++ command ++ "\n"))
          name path command).2 := by rw [hr]
      have herr : err = (runCommand W (logPrintf s (name ++ ": " ++ command ++ "\n"))
          name path command).1 := by rw [hr]
      cases err with
      | some e =>
        refine LoopResult.failed [] task command e (attempted rest) (by simpa using hatt) ?_ ?_ ?_ ?_
        · simp [hs2, ← herr]
        · simp [hs2]
        · simp [hs2]
        · simp [hs2]
      | none =>
        have h := ih { s2 with succeeded := true }
        cases h with
        | allOk h1 h2 h3 h4 =>
          refine LoopResult.allOk ?_ ?_ ?_ ?_
          · rw [h1, hatt]; simp [hs2, ← herr, okRecord]
          · rw [h2, hatt]; simp
          · rw [h3]; simp [hs2]
          · rw [h4]; simp [hs2]
        | failed ok t c e more h0 h1 h2 h3 h4 =>
          refine LoopResult.failed ((task, command) :: ok) t c e more ?_ ?_ ?_ ?_ ?_
          · rw [hatt, h0]; simp
          · rw [h1]; simp [hs2, ← herr, okRecord]
          · rw [h2]; simp
          · rw [h3]; simp [hs2]
          · rw [h4]; simp [hs2]

/-! ## The end of the handler -/

@[simp] theorem writeOK_calls (s : State) : (writeOK s).calls = s.calls := by
  unfold writeOK write writeHeader
  cases s.succeeded <;> cases s.status <;> simp

@[simp] theorem writeOK_succeeded (s : State) : (writeOK s).succeeded = s.succeeded := by
  unfold writeOK write writeHeader
  cases h : s.succeeded <;> cases s.status <;> simp [h]

theorem writeOK_response (s : State) :
    response (writeOK s)
      = if s.succeeded then (s.status.getD 200, s.body ++ "OK") else (s.status.getD 200, s.body) := by
  unfold writeOK write writeHeader response
  cases h : s.succeeded <;> cases h' : s.status <;> simp [h']

/-- The record that the `start` bracket of `afterStop` appends, if it is configured. -/
theorem afterStop_calls (c : config) (W : World) (name : String) (app : App) (s : State) :
    (afterStop c W name app s).calls
      = (runStages W name app.Path (commands app) s).calls ++
        (if c.RPC ≠ "" ∧ app.Proc ≠ "" then
          [(Call.rpcCommand c.RPC "start" app.Proc,
            (rpcCommand W (runStages W name app.Path (commands app) s) c.RPC "start" app.Proc).1)]
         else []) := by
  by_cases hb : c.RPC ≠ "" ∧ app.Proc ≠ ""
  · simp only [afterStop, if_pos hb, writeOK_calls]
    rcases hr : rpcCommand W (runStages W name app.Path (commands app) s) c.RPC "start" app.Proc
      with ⟨err, s'⟩
    have hs : s' = (rpcCommand W (runStages W name app.Path (commands app) s)
        c.RPC "start" app.Proc).2 := by rw [hr]
    have he : err = (rpcCommand W (runStages W name app.Path (commands app) s)
        c.RPC "start" app.Proc).1 := by rw [hr]
    cases err <;> simp [hs, ← he]
  · simp only [afterStop, if_neg hb, writeOK_calls, List.append_nil]

theorem afterStop_succeeded (c : config) (W : World) (name : String) (app : App) (s : State) :
    (afterStop c W name app s).succeeded
      = (runStages W name app.Path (commands app) s).succeeded := by
  by_cases hb : c.RPC ≠ "" ∧ app.Proc ≠ ""
  · simp only [afterStop, if_pos hb, writeOK_succeeded]
    rcases hr : rpcCommand W (runStages W name app.Path (commands app) s) c.RPC "start" app.Proc
      with ⟨err, s'⟩
    have hs : s' = (rpcCommand W (runStages W name app.Path (commands app) s)
        c.RPC "start" app.Proc).2 := by rw [hr]
    cases err <;> simp [hs]
  · simp only [afterStop, if_neg hb, writeOK_succeeded]

theorem afterStop_response (c : config) (W : World) (name : String) (app : App) (s : State) :
    response (afterStop c W name app s)
      = response (writeOK (runStages W name app.Path (commands app) s)) := by
  by_cases hb : c.RPC ≠ "" ∧ app.Proc ≠ ""
  · simp only [afterStop, if_pos hb]
    rcases hr : rpcCommand W (runStages W name app.Path (commands app) s) c.RPC "start" app.Proc
      with ⟨err, s'⟩
    have hs : s' = (rpcCommand W (runStages W name app.Path (commands app) s)
        c.RPC "start" app.Proc).2 := by rw [hr]
    cases err <;> simp [hs, writeOK_response]
  · simp only [afterStop, if_neg hb]

/-- The handler on a resolved request whose run gets past the `stop` bracket. -/
theorem handler_running (c : config) (W : World) (fv : String) (p : payload) (app : App)
    (hp : W.unmarshal fv = some p) (ha : c.Apps p.RepositoryName = some app)
    (hstop : c.RPC ≠ "" → app.Proc ≠ "" →
      (rpcCommand W State.init c.RPC "stop" app.Proc).1 = none) :
    handler c W fv = afterStop c W p.RepositoryName app
      (if c.RPC ≠ "" ∧ app.Proc ≠ "" then
        (rpcCommand W State.init c.RPC "stop" app.Proc).2 else State.init) := by
  simp only [handler, hp, ha]
  by_cases hb : c.RPC ≠ "" ∧ app.Proc ≠ ""
  · have h := hstop hb.1 hb.2
    simp only [if_pos hb]
    rcases hr : rpcCommand W State.init c.RPC "stop" app.Proc with ⟨err, s'⟩
    rw [hr] at h
    simp only at h
    subst h
    rfl
  · simp only [if_neg hb]

/-- The handler on a resolved request whose `stop` call fails. -/
theorem handler_stop_failed (c : config) (W : World) (fv : String) (p : payload) (app : App)
    (e : String)
    (hp : W.unmarshal fv = some p) (ha : c.Apps p.RepositoryName = some app)
    (hrpc : c.RPC ≠ "") (hproc : app.Proc ≠ "")
    (hstop : (rpcCommand W State.init c.RPC "stop" app.Proc).1 = some e) :
    handler c W fv = logPrintf (rpcCommand W State.init c.RPC "stop" app.Proc).2
      (p.RepositoryName ++ ": " ++ e ++ "\n") := by
  simp only [handler, hp, ha, if_pos (And.intro hrpc hproc)]
  rcases hr : rpcCommand W State.init c.RPC "stop" app.Proc with ⟨err, s'⟩
  rw [hr] at hstop
  simp only at hstop
  subst hstop
  rfl

/-! ## Bracketing -/

/-- Claim C1: for a resolved application with a process name and a controller address,
if the `stop` call succeeds, the invocations of the run are exactly one `stop` for that
process, then `runCommand` invocations of attempted stages only, then exactly one `start`
for that process, whatever the stage commands returned. -/
theorem c1_stop_stages_start (c : config) (W : World) (fv : String) (p : payload) (app : App)
    (hp : W.unmarshal fv = some p) (ha : c.Apps p.RepositoryName = some app)
    (hrpc : c.RPC ≠ "") (hproc : app.Proc ≠ "")
    (hstop : (rpcCommand W State.init c.RPC "stop" app.Proc).1 = none) :
    ∃ (stages : List Record) (r : GoError),
      (handler c W fv).calls
        = (Call.rpcCommand c.RPC "stop" app.Proc, none) :: stages
            ++ [(Call.rpcCommand c.RPC "start" app.Proc, r)]
      ∧ ∀ x ∈ stages, ∃ tc e, tc ∈ attempted (commands app)
          ∧ x = (Call.runCommand p.RepositoryName app.Path tc.2, e) := by
  have hb : c.RPC ≠ "" ∧ app.Proc ≠ "" := ⟨hrpc, hproc⟩
  rw [handler_running c W fv p app hp ha (fun _ _ => hstop), afterStop_calls]
  simp only [if_pos hb]
  generalize (rpcCommand W (runStages W p.RepositoryName app.Path (commands app)
    (rpcCommand W State.init c.RPC "stop" app.Proc).2) c.RPC "start" app.Proc).1 = r
  have hinit : (rpcCommand W State.init c.RPC "stop" app.Proc).2.calls
      = [(Call.rpcCommand c.RPC "stop" app.Proc, none)] := by
    rw [rpcCommand_calls, hstop]; rfl
  cases runStages_result W p.RepositoryName app.Path (commands app)
      (rpcCommand W State.init c.RPC "stop" app.Proc).2 with
  | allOk h1 _ _ _ =>
    refine ⟨(attempted (commands app)).map (okRecord p.RepositoryName app.Path), r, ?_, ?_⟩
    · rw [h1, hinit]; rfl
    · intro x hx
      obtain ⟨tc, htc, rfl⟩ := List.mem_map.1 hx
      exact ⟨tc, none, htc, rfl⟩
  | failed ok task command e more h0 h1 _ _ _ =>
    refine ⟨ok.map (okRecord p.RepositoryName app.Path)
      ++ [(Call.runCommand p.RepositoryName app.Path command, some e)], r, ?_, ?_⟩
    · rw [h1, hinit]; simp
    · intro x hx
      rcases List.mem_append.1 hx with hx | hx
      · obtain ⟨tc, htc, rfl⟩ := List.mem_map.1 hx
        exact ⟨tc, none, by rw [h0]; exact List.mem_append_left _ htc, rfl⟩
      · rw [List.mem_singleton] at hx
        exact ⟨(task, command), some e, by rw [h0]; simp, hx⟩

/-- The run of the application `web` with a controller address, every call succeeding:
`stop` returns `nil`, and the invocations are `stop`, three stage commands, `start`. -/
theorem c1_stop_stages_start_witness :
    okWorld.unmarshal (payloadText "web") = some { PusherName := "", RepositoryName := "web" }
    ∧ rpcConfig.Apps "web" = some webApp
    ∧ (∃ (stages : List Record) (r : GoError),
      (handler rpcConfig okWorld (payloadText "web")).calls
        = (Call.rpcCommand rpcConfig.RPC "stop" webApp.Proc, none) :: stages
            ++ [(Call.rpcCommand rpcConfig.RPC "start" webApp.Proc, r)]
      ∧ ∀ x ∈ stages, ∃ tc e, tc ∈ attempted (commands webApp)
          ∧ x = (Call.runCommand "web" webApp.Path tc.2, e))
    ∧ (handler rpcConfig okWorld (payloadText "web")).calls
        = [(Call.rpcCommand "127.0.0.1:5555" "stop" "web", none),
           (Call.runCommand "web" "/srv/demo" "git pull origin master", none),
           (Call.runCommand "web" "/srv/demo" "make", none),
           (Call.runCommand "web" "/srv/demo" "make deploy", none),
           (Call.rpcCommand "127.0.0.1:5555" "start" "web", none)] :=
  ⟨by decide, by decide,
   c1_stop_stages_start rpcConfig okWorld (payloadText "web")
     { PusherName := "", RepositoryName := "web" } webApp (by decide) (by decide)
     (by decide) (by decide) (by decide),
   by decide⟩

/-- Claim C6: for a resolved application with a process name and a controller address,
if the `stop` call fails, the failed `stop` is the only invocation of the run (no stage
command, no `start`), `succeeded` stays false and the response is status 200 with an
empty body. -/
theorem c6_stop_failure_ends_run (c : config) (W : World) (fv : String) (p : payload)
    (app : App) (e : String)
    (hp : W.unmarshal fv = some p) (ha : c.Apps p.RepositoryName = some app)
    (hrpc : c.RPC ≠ "") (hproc : app.Proc ≠ "")
    (hstop : (rpcCommand W State.init c.RPC "stop" app.Proc).1 = some e) :
    (handler c W fv).calls = [(Call.rpcCommand c.RPC "stop" app.Proc, some e)]
      ∧ runRecords (handler c W fv).calls = []
      ∧ (∀ r, (Call.rpcCommand c.RPC "start" app.Proc, r) ∉ (handler c W fv).calls)
      ∧ (handler c W fv).succeeded = false
      ∧ response (handler c W fv) = (200, "") := by
  rw [handler_stop_failed c W fv p app e hp ha hrpc hproc hstop]
  have hcalls : (logPrintf (rpcCommand W State.init c.RPC "stop" app.Proc).2
      (p.RepositoryName ++ ": " ++ e ++ "\n")).calls
        = [(Call.rpcCommand c.RPC "stop" app.Proc, some e)] := by
    rw [logPrintf_calls, rpcCommand_calls, hstop]; rfl
  refine ⟨hcalls, ?_, ?_, ?_, ?_⟩
  · rw [hcalls]; rfl
  · intro r hr
    rw [hcalls, List.mem_singleton] at hr
    have h := congrArg (fun x : Record => match x.1 with
      | Call.rpcCommand _ cmd _ => cmd
      | Call.runCommand _ _ _ => "") hr
    simp only at h
    exact absurd h (by decide)
  · rfl
  · rfl

/-- The run of the application `web` when the controller refuses `Goreman.Stop`: the
failed `stop` is the only invocation and nothing is written to the response. -/
theorem c6_stop_failure_ends_run_witness :
    (rpcCommand stopFails State.init rpcConfig.RPC "stop" webApp.Proc).1 = some "not running"
    ∧ (handler rpcConfig stopFails (payloadText "web")).calls
        = [(Call.rpcCommand rpcConfig.RPC "stop" webApp.Proc, some "not running")]
    ∧ runRecords (handler rpcConfig stopFails (payloadText "web")).calls = []
    ∧ (∀ r, (Call.rpcCommand rpcConfig.RPC "start" webApp.Proc, r)
        ∉ (handler rpcConfig stopFails (payloadText "web")).calls)
    ∧ (handler rpcConfig stopFails (payloadText "web")).succeeded = false
    ∧ response (handler rpcConfig stopFails (payloadText "web")) = (200, "") :=
  ⟨by decide,
   c6_stop_failure_ends_run rpcConfig stopFails (payloadText "web")
     { PusherName := "", RepositoryName := "web" } webApp "not running"
     (by decide) (by decide) (by decide) (by decide) (by decide)⟩

/-- Claim C7: when the payload fails to parse, or parses to a repository name that is not
a key of `Apps`, the handler invokes neither `runCommand` nor `rpcCommand` and the response
is status 200 with an empty body. -/
theorem c7_unresolved_is_ignored (c : config) (W : World) (fv : String)
    (h : W.unmarshal fv = none ∨ ∃ p, W.unmarshal fv = some p ∧ c.Apps p.RepositoryName = none) :
    (handler c W fv).calls = [] ∧ response (handler c W fv) = (200, "") := by
  rcases h with h | ⟨p, hp, ha⟩
  · simp only [handler, h]; exact ⟨rfl, rfl⟩
  · simp only [handler, hp, ha]; exact ⟨rfl, rfl⟩

/-- Both ways of not resolving occur: a malformed payload, and a payload naming a
repository that differs from the key `demo` by case only. -/
theorem c7_unresolved_is_ignored_witness :
    okWorld.unmarshal "not json" = none
    ∧ ((handler rpcConfig okWorld "not json").calls = []
        ∧ response (handler rpcConfig okWorld "not json") = (200, ""))
    ∧ rpcConfig.Apps "Demo" = none
    ∧ ((handler rpcConfig demoCapitalised (payloadText "Demo")).calls = []
        ∧ response (handler rpcConfig demoCapitalised (payloadText "Demo")) = (200, "")) :=
  ⟨by decide,
   c7_unresolved_is_ignored rpcConfig okWorld "not json" (Or.inl (by decide)),
   by decide,
   c7_unresolved_is_ignored rpcConfig demoCapitalised (payloadText "Demo")
     (Or.inr ⟨payload.mk "" "Demo", rfl, by decide⟩)⟩

/-! ## The shape of a run that gets past the `stop` bracket -/

theorem runRecords_append (l₁ l₂ : List Record) :
    runRecords (l₁ ++ l₂) = runRecords l₁ ++ runRecords l₂ := by
  simp [runRecords]

theorem rpcRecords_append (l₁ l₂ : List Record) :
    rpcRecords (l₁ ++ l₂) = rpcRecords l₁ ++ rpcRecords l₂ := by
  simp [rpcRecords]

theorem runRecords_okRecords (name path : String) (l : List (String × String)) :
    runRecords (l.map (okRecord name path)) = l.map (okRecord name path) := by
  induction l with
  | nil => rfl
  | cons a l ih =>
    simp only [List.map_cons, runRecords, List.filter_cons, okRecord, Call.isRun, if_true]
    exact congrArg _ ih

theorem rpcRecords_okRecords (name path : String) (l : List (String × String)) :
    rpcRecords (l.map (okRecord name path)) = [] := by
  induction l with
  | nil => rfl
  | cons a l ih =>
    simp only [List.map_cons, rpcRecords, List.filter_cons, okRecord, Call.isRun]
    exact ih

theorem mem_calls_iff (l : List Record) (x : Record) :
    x ∈ l ↔ x ∈ runRecords l ∨ x ∈ rpcRecords l := by
  simp only [runRecords, rpcRecords, List.mem_filter]
  cases x.1.isRun <;> simp

/-- The state in which the stage loop starts. -/
theorem loop_start (c : config) (W : World) (app : App)
    (hstop : c.RPC ≠ "" → app.Proc ≠ "" →
      (rpcCommand W State.init c.RPC "stop" app.Proc).1 = none) :
    ∃ s : State,
      s = (if c.RPC ≠ "" ∧ app.Proc ≠ "" then
        (rpcCommand W State.init c.RPC "stop" app.Proc).2 else State.init)
      ∧ s.calls = (if c.RPC ≠ "" ∧ app.Proc ≠ "" then
          [(Call.rpcCommand c.RPC "stop" app.Proc, none)] else [])
      ∧ s.succeeded = false ∧ s.status = none ∧ s.body = "" := by
  refine ⟨_, rfl, ?_, ?_, ?_, ?_⟩
  · by_cases hb : c.RPC ≠ "" ∧ app.Proc ≠ ""
    · simp only [if_pos hb, rpcCommand_calls, hstop hb.1 hb.2]; rfl
    · simp only [if_neg hb]; rfl
  all_goals
    by_cases hb : c.RPC ≠ "" ∧ app.Proc ≠ ""
    · simp only [if_pos hb]; rfl
    · simp only [if_neg hb]; rfl

/-- A resolved run that gets past the `stop` bracket: its `rpcCommand` records are the
bracket calls when configured and none otherwise, and its `runCommand` records, the
local `succeeded` and the response have one of the two shapes of `RunShape`. -/
theorem handler_running_shape (c : config) (W : World) (fv : String) (p : payload) (app : App)
    (hp : W.unmarshal fv = some p) (ha : c.Apps p.RepositoryName = some app)
    (hstop : c.RPC ≠ "" → app.Proc ≠ "" →
      (rpcCommand W State.init c.RPC "stop" app.Proc).1 = none) :
    RunShape p.RepositoryName app.Path (commands app)
        (runRecords (handler c W fv).calls) (handler c W fv).succeeded
        (response (handler c W fv))
      ∧ ∃ r, rpcRecords (handler c W fv).calls
          = (if c.RPC ≠ "" ∧ app.Proc ≠ "" then
              [(Call.rpcCommand c.RPC "stop" app.Proc, none),
               (Call.rpcCommand c.RPC "start" app.Proc, r)] else []) := by
  obtain ⟨s, hs, hcalls, hsucc, hstatus, hbody⟩ := loop_start c W app hstop
  rw [handler_running c W fv p app hp ha hstop, ← hs, afterStop_calls, afterStop_succeeded,
    afterStop_response, writeOK_response]
  generalize (rpcCommand W (runStages W p.RepositoryName app.Path (commands app) s)
    c.RPC "start" app.Proc).1 = r
  have hpre : runRecords s.calls = [] := by
    rw [hcalls]; by_cases hb : c.RPC ≠ "" ∧ app.Proc ≠ ""
    · simp only [if_pos hb]; rfl
    · simp only [if_neg hb]; rfl
  have hpost : runRecords (if c.RPC ≠ "" ∧ app.Proc ≠ "" then
      [((Call.rpcCommand c.RPC "start" app.Proc, r) : Record)] else []) = [] := by
    by_cases hb : c.RPC ≠ "" ∧ app.Proc ≠ ""
    · simp only [if_pos hb]; rfl
    · simp only [if_neg hb]; rfl
  have hrun (l : List Record) (h : rpcRecords l = []) :
      rpcRecords (s.calls ++ l ++ (if c.RPC ≠ "" ∧ app.Proc ≠ "" then
        [((Call.rpcCommand c.RPC "start" app.Proc, r) : Record)] else []))
      = (if c.RPC ≠ "" ∧ app.Proc ≠ "" then
              [(Call.rpcCommand c.RPC "stop" app.Proc, none),
               (Call.rpcCommand c.RPC "start" app.Proc, r)] else []) := by
    rw [rpcRecords_append, rpcRecords_append, h, hcalls]
    by_cases hb : c.RPC ≠ "" ∧ app.Proc ≠ ""
    · simp only [if_pos hb]; rfl
    · simp only [if_neg hb]; rfl
  refine ⟨?_, r, ?_⟩
  · rw [runRecords_append, hpost, List.append_nil]
    cases runStages_result W p.RepositoryName app.Path (commands app) s with
    | allOk h1 h2 h3 h4 =>
      refine RunShape.allOk ?_ ?_ ?_
      · rw [h1, runRecords_append, hpre, runRecords_okRecords, List.nil_append]
      · rw [h2, hsucc, Bool.false_or]
      · rw [h2, h3, h4, hsucc, hstatus, hbody]
        cases (attempted (commands app)).isEmpty <;> simp
    | failed ok task command e more h0 h1 h2 h3 h4 =>
      refine RunShape.failed ok task command e more h0 ?_ ?_ ?_
      · rw [h1, runRecords_append, runRecords_append, hpre, runRecords_okRecords,
          List.nil_append]
        rfl
      · rw [h2, hsucc, Bool.false_or]
      · rw [h2, h3, h4, hsucc, hstatus, hbody]
        cases ok.isEmpty <;> simp
  · cases runStages_result W p.RepositoryName app.Path (commands app) s with
    | allOk h1 h2 h3 h4 =>
      rw [h1]
      exact hrun _ (rpcRecords_okRecords _ _ _)
    | failed ok task command e more h0 h1 h2 h3 h4 =>
      rw [h1, List.append_assoc s.calls]
      refine hrun _ ?_
      rw [rpcRecords_append, rpcRecords_okRecords]
      rfl

/-! ## Stage order and fail-fast -/

theorem ranCommands_append (l₁ l₂ : List Record) :
    ranCommands (l₁ ++ l₂) = ranCommands l₁ ++ ranCommands l₂ := by
  simp [ranCommands]

theorem ranCommands_okRecords (name path : String) (l : List (String × String)) :
    ranCommands (l.map (okRecord name path)) = l.map Prod.snd := by
  induction l with
  | nil => rfl
  | cons a l ih =>
    simp only [List.map_cons, ranCommands, List.filterMap_cons, okRecord]
    exact congrArg _ ih

theorem ranCommands_runRecords (l : List Record) :
    ranCommands (runRecords l) = ranCommands l := by
  induction l with
  | nil => rfl
  | cons a l ih =>
    obtain ⟨call, err⟩ := a
    cases call with
    | rpcCommand s c p =>
      simp only [runRecords, List.filter_cons, Call.isRun, ranCommands, List.filterMap_cons]
      exact ih
    | runCommand n d c =>
      simp only [runRecords, List.filter_cons, Call.isRun, ranCommands, List.filterMap_cons,
        if_true]
      exact congrArg _ ih

/-- The first attempted stage is always `update`, with the effective update command. -/
theorem attempted_commands (app : App) :
    attempted (commands app)
      = ("update", updateCommand app) :: attempted
          [("build", app.BuildCommand), ("test", app.TestCommand),
           ("release", app.ReleaseCommand)] := by
  have h : updateCommand app ≠ "" := by
    unfold updateCommand
    by_cases hu : app.UpdateCommand = ""
    · rw [if_pos hu]; decide
    · rw [if_neg hu]; exact hu
  simp [attempted, commands, h]

/-- Claim C2, as the code has it: for a resolved application whose run gets past the
`stop` bracket (bracketing is not configured, or `stop` succeeded), the `runCommand`
invocations are the attempted stages (non-empty effective commands, in the order update,
build, test, release) up to and including the first one that fails, or all of them if
none fails; in particular the commands run are an initial segment of the attempted ones. -/
theorem c2_fail_fast_past_stop (c : config) (W : World) (fv : String) (p : payload) (app : App)
    (hp : W.unmarshal fv = some p) (ha : c.Apps p.RepositoryName = some app)
    (hstop : c.RPC ≠ "" → app.Proc ≠ "" →
      (rpcCommand W State.init c.RPC "stop" app.Proc).1 = none) :
    FailFast p.RepositoryName app.Path (commands app) (handler c W fv).calls
      ∧ ranCommands (handler c W fv).calls <+: (attempted (commands app)).map Prod.snd := by
  have hshape := (handler_running_shape c W fv p app hp ha hstop).1
  rw [← ranCommands_runRecords]
  cases hshape with
  | allOk h1 _ _ =>
    refine ⟨⟨attempted (commands app), Or.inl ⟨h1, rfl⟩⟩, ?_⟩
    rw [h1, ranCommands_okRecords]
  | failed ok task command e more h0 h1 _ _ =>
    refine ⟨⟨ok, Or.inr ⟨task, command, e, more, h1, h0⟩⟩, ?_⟩
    rw [h1, h0, ranCommands_append, ranCommands_okRecords]
    refine ⟨more.map Prod.snd, ?_⟩
    simp [ranCommands]

/-- The scenario of claim C2: the application `demo` (build `make`, empty test, release
`make deploy`, no process) with every command succeeding runs `git pull origin master`,
`make`, `make deploy` in that order and answers `OK`. -/
theorem c2_fail_fast_past_stop_witness :
    (FailFast "demo" demoApp.Path (commands demoApp)
        (handler plainConfig okWorld (payloadText "demo")).calls
      ∧ ranCommands (handler plainConfig okWorld (payloadText "demo")).calls
          <+: (attempted (commands demoApp)).map Prod.snd)
    ∧ ranCommands (handler plainConfig okWorld (payloadText "demo")).calls
        = ["git pull origin master", "make", "make deploy"]
    ∧ (handler plainConfig okWorld (payloadText "demo")).calls
        = [(Call.runCommand "demo" "/srv/demo" "git pull origin master", none),
           (Call.runCommand "demo" "/srv/demo" "make", none),
           (Call.runCommand "demo" "/srv/demo" "make deploy", none)]
    ∧ response (handler plainConfig okWorld (payloadText "demo")) = (200, "OK") :=
  ⟨c2_fail_fast_past_stop plainConfig okWorld (payloadText "demo")
     { PusherName := "", RepositoryName := "demo" } demoApp (by decide) (by decide)
     (fun h => absurd rfl h),
   by decide, by decide, by decide⟩

/-- Claim C2 as stated fails when the `stop` call fails: the application `web` is
resolved and no stage command fails, yet the commands run are not the whole list of
attempted stages (none is run). -/
theorem c2_counterexample_stop_fails :
    stopFails.unmarshal (payloadText "web") = some { PusherName := "", RepositoryName := "web" }
    ∧ rpcConfig.Apps "web" = some webApp
    ∧ runRecords (handler rpcConfig stopFails (payloadText "web")).calls = []
    ∧ attempted (commands webApp)
        = [("update", "git pull origin master"), ("build", "make"), ("release", "make deploy")]
    ∧ ¬ FailFast "web" webApp.Path (commands webApp)
        (handler rpcConfig stopFails (payloadText "web")).calls := by
  have hruns : runRecords (handler rpcConfig stopFails (payloadText "web")).calls = [] := by
    decide
  have hatt : attempted (commands webApp)
      = [("update", "git pull origin master"), ("build", "make"), ("release", "make deploy")] := by
    decide
  refine ⟨by decide, by decide, hruns, hatt, ?_⟩
  rintro ⟨ok, ⟨h1, h2⟩ | ⟨task, command, e, more, h1, _⟩⟩
  · rw [hruns] at h1
    rw [hatt] at h2
    rw [← h2] at h1
    exact absurd h1 (by simp)
  · rw [hruns] at h1
    exact absurd h1 (by simp)

/-- Claim C3 at the failing input: for `demo`, update succeeds and build fails; the
response has status 400 but its body is the failure line followed by `OK`, because
`succeeded` was set by the update stage and the final write still runs after `break`. -/
theorem c3_ok_follows_failure_message :
    (handler plainConfig buildFails (payloadText "demo")).calls
        = [(Call.runCommand "demo" "/srv/demo" "git pull origin master", none),
           (Call.runCommand "demo" "/srv/demo" "make", some "exit status 2")]
    ∧ response (handler plainConfig buildFails (payloadText "demo"))
        = (400, "Failed to build\nOK")
    ∧ response (handler plainConfig buildFails (payloadText "demo")) ≠ (400, "Failed to build")
    ∧ response (handler plainConfig buildFails (payloadText "demo")) ≠ (400, "Failed to build\n") := by
  decide

/-! ## The outcome flag -/

/-- A `runCommand` record of a list is one of its `runRecords`. -/
theorem run_mem_iff (l : List Record) (n d cmd : String) (r : GoError) :
    (Call.runCommand n d cmd, r) ∈ l ↔ (Call.runCommand n d cmd, r) ∈ runRecords l := by
  simp [runRecords, List.mem_filter, Call.isRun]

/-- An `rpcCommand` record of a list is one of its `rpcRecords`. -/
theorem rpc_mem_iff (l : List Record) (s cmd proc : String) (r : GoError) :
    (Call.rpcCommand s cmd proc, r) ∈ l ↔ (Call.rpcCommand s cmd proc, r) ∈ rpcRecords l := by
  simp [rpcRecords, List.mem_filter, Call.isRun]

/-- In a run that gets past the `stop` bracket no record of a failed `stop` exists. -/
theorem no_failed_stop (c : config) (W : World) (fv : String) (p : payload) (app : App)
    (hp : W.unmarshal fv = some p) (ha : c.Apps p.RepositoryName = some app)
    (hstop : c.RPC ≠ "" → app.Proc ≠ "" →
      (rpcCommand W State.init c.RPC "stop" app.Proc).1 = none) (e : String) :
    (Call.rpcCommand c.RPC "stop" app.Proc, some e) ∉ (handler c W fv).calls := by
  obtain ⟨r, hr⟩ := (handler_running_shape c W fv p app hp ha hstop).2
  rw [rpc_mem_iff, hr]
  by_cases hb : c.RPC ≠ "" ∧ app.Proc ≠ ""
  · simp only [if_pos hb]
    intro h
    rcases List.mem_cons.1 h with h | h
    · exact absurd (congrArg Prod.snd h) (by simp)
    · rw [List.mem_singleton] at h
      have h' := congrArg (fun x : Record => match x.1 with
        | Call.rpcCommand _ cmd _ => cmd
        | Call.runCommand _ _ _ => "") h
      simp only at h'
      exact absurd h' (by decide)
  · simp only [if_neg hb]
    exact List.not_mem_nil _

/-- Whether the stop bracket lets the run go on is decided by the result of `stop`. -/
theorem stop_cases (c : config) (W : World) (app : App) :
    (c.RPC ≠ "" → app.Proc ≠ "" → (rpcCommand W State.init c.RPC "stop" app.Proc).1 = none)
    ∨ (c.RPC ≠ "" ∧ app.Proc ≠ ""
        ∧ ∃ e, (rpcCommand W State.init c.RPC "stop" app.Proc).1 = some e) := by
  cases h : (rpcCommand W State.init c.RPC "stop" app.Proc).1 with
  | none => exact Or.inl (fun _ _ => rfl)
  | some e =>
    by_cases hb : c.RPC ≠ "" ∧ app.Proc ≠ ""
    · exact Or.inr ⟨hb.1, hb.2, e, rfl⟩
    · exact Or.inl (fun h1 h2 => absurd ⟨h1, h2⟩ hb)

/-- Claim C4: at the end of the handler `succeeded` is true exactly when the repository
resolved, no `stop` call failed and some `runCommand` invocation returned `nil`; and
exactly when the repository resolved and the first `runCommand` invocation of the run is
that of the first attempted stage and returned `nil`. -/
theorem c4_succeeded_iff (c : config) (W : World) (fv : String) :
    ((handler c W fv).succeeded = true ↔
      ∃ p app, W.unmarshal fv = some p ∧ c.Apps p.RepositoryName = some app
        ∧ (∀ e, (Call.rpcCommand c.RPC "stop" app.Proc, some e) ∉ (handler c W fv).calls)
        ∧ ∃ n d cmd, (Call.runCommand n d cmd, none) ∈ (handler c W fv).calls)
    ∧ ((handler c W fv).succeeded = true ↔
      ∃ p app tc, W.unmarshal fv = some p ∧ c.Apps p.RepositoryName = some app
        ∧ (attempted (commands app)).head? = some tc
        ∧ (runRecords (handler c W fv).calls).head?
            = some (Call.runCommand p.RepositoryName app.Path tc.2, none)) := by
  cases hp : W.unmarshal fv with
  | none =>
    have hs : (handler c W fv).succeeded = false := by simp only [handler, hp]; rfl
    rw [hs]
    constructor
    · exact ⟨fun h => absurd h (by decide), fun ⟨_, _, h, _⟩ => absurd h (by simp)⟩
    · exact ⟨fun h => absurd h (by decide), fun ⟨_, _, _, h, _⟩ => absurd h (by simp)⟩
  | some p =>
    cases ha : c.Apps p.RepositoryName with
    | none =>
      have hs : (handler c W fv).succeeded = false := by simp only [handler, hp, ha]; rfl
      rw [hs]
      constructor
      · refine ⟨fun h => absurd h (by decide), ?_⟩
        rintro ⟨p', app', h1, h2, _⟩
        cases h1
        rw [ha] at h2
        exact absurd h2 (by simp)
      · refine ⟨fun h => absurd h (by decide), ?_⟩
        rintro ⟨p', app', _, h1, h2, _⟩
        cases h1
        rw [ha] at h2
        exact absurd h2 (by simp)
    | some app =>
      rcases stop_cases c W app with hstop | ⟨hrpc, hproc, e, he⟩
      · have hshape := (handler_running_shape c W fv p app hp ha hstop).1
        have hnf := no_failed_stop c W fv p app hp ha hstop
        have hatt := attempted_commands app
        cases hshape with
        | allOk h1 h2 _ =>
          have hs : (handler c W fv).succeeded = true := by rw [h2, hatt]; rfl
          rw [hs]
          constructor
          · refine ⟨fun _ => ⟨p, app, rfl, ha, hnf, p.RepositoryName, app.Path,
              updateCommand app, ?_⟩, fun _ => rfl⟩
            rw [run_mem_iff, h1, hatt]
            exact List.mem_cons_self _ _
          · refine ⟨fun _ => ⟨p, app, ("update", updateCommand app), rfl, ha, ?_, ?_⟩,
              fun _ => rfl⟩
            · rw [hatt]; rfl
            · rw [h1, hatt]; rfl
        | failed ok task command e more h0 h1 h2 _ =>
          cases ok with
          | nil =>
            have hs : (handler c W fv).succeeded = false := by rw [h2]; rfl
            rw [hs]
            constructor
            · refine ⟨fun h => absurd h (by decide), ?_⟩
              rintro ⟨_, _, _, _, _, n, d, cmd, hmem⟩
              rw [run_mem_iff, h1] at hmem
              simp at hmem
            · refine ⟨fun h => absurd h (by decide), ?_⟩
              rintro ⟨_, _, _, _, _, _, hhead⟩
              rw [h1] at hhead
              simp at hhead
          | cons tc ok' =>
            have hs : (handler c W fv).succeeded = true := by rw [h2]; rfl
            rw [hs]
            constructor
            · refine ⟨fun _ => ⟨p, app, rfl, ha, hnf, p.RepositoryName, app.Path, tc.2, ?_⟩,
                fun _ => rfl⟩
              rw [run_mem_iff, h1]
              exact List.mem_append_left _ (List.mem_cons_self _ _)
            · refine ⟨fun _ => ⟨p, app, tc, rfl, ha, ?_, ?_⟩, fun _ => rfl⟩
              · rw [h0]; rfl
              · rw [h1]; rfl
      · have hh := handler_stop_failed c W fv p app e hp ha hrpc hproc he
        have hs : (handler c W fv).succeeded = false := by rw [hh]; rfl
        have hcalls : (handler c W fv).calls
            = [(Call.rpcCommand c.RPC "stop" app.Proc, some e)] := by
          rw [hh, logPrintf_calls, rpcCommand_calls, he]; rfl
        rw [hs, hcalls]
        constructor
        · refine ⟨fun h => absurd h (by decide), ?_⟩
          rintro ⟨p', app', h1, h2, h3, _⟩
          cases h1
          rw [ha] at h2
          cases h2
          exact absurd (List.mem_singleton.2 rfl) (h3 e)
        · refine ⟨fun h => absurd h (by decide), ?_⟩
          rintro ⟨_, _, _, _, _, _, hhead⟩
          simp [runRecords, Call.isRun] at hhead

/-! ## The default update command -/

/-- Claim C8: for a resolved application the effective update command is
`git pull origin master` when the configured one is empty and the configured one
otherwise; it heads the `commands` slice, and in every run that gets past the `stop`
bracket the first `runCommand` invocation is the update stage with that command. -/
theorem c8_effective_update_command (c : config) (W : World) (fv : String) (p : payload)
    (app : App)
    (hp : W.unmarshal fv = some p) (ha : c.Apps p.RepositoryName = some app) :
    (app.UpdateCommand = "" → updateCommand app = "git pull origin master")
    ∧ (app.UpdateCommand ≠ "" → updateCommand app = app.UpdateCommand)
    ∧ (commands app).head? = some ("update", updateCommand app)
    ∧ (attempted (commands app)).head? = some ("update", updateCommand app)
    ∧ ((c.RPC ≠ "" → app.Proc ≠ "" →
          (rpcCommand W State.init c.RPC "stop" app.Proc).1 = none) →
        ∃ r, (runRecords (handler c W fv).calls).head?
          = some (Call.runCommand p.RepositoryName app.Path (updateCommand app), r)) := by
  have hatt := attempted_commands app
  refine ⟨fun h => if_pos h, fun h => if_neg h, rfl, by rw [hatt]; rfl, fun hstop => ?_⟩
  cases (handler_running_shape c W fv p app hp ha hstop).1 with
  | allOk h1 _ _ => exact ⟨none, by rw [h1, hatt]; rfl⟩
  | failed ok task command e more h0 h1 _ _ =>
    rw [hatt] at h0
    cases ok with
    | nil =>
      rw [List.nil_append, List.cons.injEq] at h0
      have hc : updateCommand app = command := congrArg Prod.snd h0.1
      refine ⟨some e, ?_⟩
      rw [h1, hc]
      rfl
    | cons tc ok' =>
      rw [List.cons_append, List.cons.injEq] at h0
      refine ⟨none, ?_⟩
      rw [h1, ← h0.1]
      rfl

/-- The application `demo` has an empty configured update command: its run starts with
`git pull origin master`, here with the build failing afterwards. -/
theorem c8_effective_update_command_witness :
    ((demoApp.UpdateCommand = "" → updateCommand demoApp = "git pull origin master")
    ∧ (demoApp.UpdateCommand ≠ "" → updateCommand demoApp = demoApp.UpdateCommand)
    ∧ (commands demoApp).head? = some ("update", updateCommand demoApp)
    ∧ (attempted (commands demoApp)).head? = some ("update", updateCommand demoApp)
    ∧ ((plainConfig.RPC ≠ "" → demoApp.Proc ≠ "" →
          (rpcCommand buildFails State.init plainConfig.RPC "stop" demoApp.Proc).1 = none) →
        ∃ r, (runRecords (handler plainConfig buildFails (payloadText "demo")).calls).head?
          = some (Call.runCommand "demo" demoApp.Path (updateCommand demoApp), r)))
    ∧ demoApp.UpdateCommand = ""
    ∧ (runRecords (handler plainConfig buildFails (payloadText "demo")).calls).head?
        = some (Call.runCommand "demo" "/srv/demo" "git pull origin master", none) :=
  ⟨c8_effective_update_command plainConfig buildFails (payloadText "demo")
     { PusherName := "", RepositoryName := "demo" } demoApp (by decide) (by decide),
   by decide, by decide⟩

/-! ## An application without configured commands -/

/-- Claim C5 as stated fails: the application `bare` has all four configured commands
empty, yet the run hands `git pull origin master` to `runCommand`, `succeeded` is true
and the response body is `OK`. -/
theorem c5_counterexample_default_update_runs :
    okWorld.unmarshal (payloadText "bare") = some { PusherName := "", RepositoryName := "bare" }
    ∧ rpcConfig.Apps "bare" = some bareApp
    ∧ (bareApp.UpdateCommand = "" ∧ bareApp.BuildCommand = "" ∧ bareApp.TestCommand = ""
        ∧ bareApp.ReleaseCommand = "")
    ∧ (handler rpcConfig okWorld (payloadText "bare")).calls
        = [(Call.rpcCommand "127.0.0.1:5555" "stop" "web", none),
           (Call.runCommand "bare" "/srv/bare" "git pull origin master", none),
           (Call.rpcCommand "127.0.0.1:5555" "start" "web", none)]
    ∧ ¬ (runRecords (handler rpcConfig okWorld (payloadText "bare")).calls = []
          ∧ (handler rpcConfig okWorld (payloadText "bare")).succeeded = false
          ∧ response (handler rpcConfig okWorld (payloadText "bare")) = (200, ""))
    ∧ (handler rpcConfig okWorld (payloadText "bare")).succeeded = true
    ∧ response (handler rpcConfig okWorld (payloadText "bare")) = (200, "OK") := by
  decide

/-- Claim C5, as the code has it: for a resolved application whose four configured
commands are all empty and whose run gets past the `stop` bracket, `runCommand` is invoked
exactly once, on the default update command `git pull origin master`; the bracket calls
`stop` and `start` both fire when configured and no controller call is made otherwise;
`succeeded` is true exactly when that command returned `nil`; the response is status 200
with body `OK` when it did, and status 400 with the line `Failed to update` when not. -/
theorem c5_all_empty_runs_default_update (c : config) (W : World) (fv : String) (p : payload)
    (app : App)
    (hp : W.unmarshal fv = some p) (ha : c.Apps p.RepositoryName = some app)
    (hu : app.UpdateCommand = "") (hb : app.BuildCommand = "") (ht : app.TestCommand = "")
    (hr : app.ReleaseCommand = "")
    (hstop : c.RPC ≠ "" → app.Proc ≠ "" →
      (rpcCommand W State.init c.RPC "stop" app.Proc).1 = none) :
    ∃ r : GoError,
      runRecords (handler c W fv).calls
        = [(Call.runCommand p.RepositoryName app.Path "git pull origin master", r)]
      ∧ (∃ r', rpcRecords (handler c W fv).calls
          = (if c.RPC ≠ "" ∧ app.Proc ≠ "" then
              [(Call.rpcCommand c.RPC "stop" app.Proc, none),
               (Call.rpcCommand c.RPC "start" app.Proc, r')] else []))
      ∧ ((handler c W fv).succeeded = true ↔ r = none)
      ∧ (r = none → response (handler c W fv) = (200, "OK"))
      ∧ (∀ e, r = some e → response (handler c W fv) = (400, "Failed to update\n")) := by
  have hatt : attempted (commands app) = [("update", "git pull origin master")] := by
    rw [attempted_commands, hb, ht, hr, updateCommand, if_pos hu]
    rfl
  obtain ⟨hshape, hrpc⟩ := handler_running_shape c W fv p app hp ha hstop
  cases hshape with
  | allOk h1 h2 h3 =>
    rw [hatt] at h1 h2 h3
    refine ⟨none, h1, hrpc, ?_, fun _ => h3, fun e he => absurd he (by simp)⟩
    rw [h2]
    exact ⟨fun _ => rfl, fun _ => rfl⟩
  | failed ok task command e more h0 h1 h2 h3 =>
    rw [hatt] at h0
    cases ok with
    | nil =>
      rw [List.nil_append, List.cons.injEq] at h0
      have ht : task = "update" := (congrArg Prod.fst h0.1).symm
      have hc : command = "git pull origin master" := (congrArg Prod.snd h0.1).symm
      subst ht hc
      refine ⟨some e, h1, hrpc, ?_, fun he => absurd he (by simp), fun _ _ => h3⟩
      rw [h2]
      exact ⟨fun h => absurd h (by decide), fun h => absurd h (by simp)⟩
    | cons tc ok' =>
      rw [List.cons_append, List.cons.injEq] at h0
      exact absurd h0.2 (by simp)

/-- The run of `bare`, all four configured commands empty, when the default update
command fails: one `runCommand` invocation between the bracket calls, status 400. -/
theorem c5_all_empty_runs_default_update_witness :
    (∃ r : GoError,
      runRecords (handler rpcConfig updateFails (payloadText "bare")).calls
        = [(Call.runCommand "bare" bareApp.Path "git pull origin master", r)]
      ∧ (∃ r', rpcRecords (handler rpcConfig updateFails (payloadText "bare")).calls
          = (if rpcConfig.RPC ≠ "" ∧ bareApp.Proc ≠ "" then
              [(Call.rpcCommand rpcConfig.RPC "stop" bareApp.Proc, none),
               (Call.rpcCommand rpcConfig.RPC "start" bareApp.Proc, r')] else []))
      ∧ ((handler rpcConfig updateFails (payloadText "bare")).succeeded = true ↔ r = none)
      ∧ (r = none → response (handler rpcConfig updateFails (payloadText "bare")) = (200, "OK"))
      ∧ (∀ e, r = some e → response (handler rpcConfig updateFails (payloadText "bare"))
          = (400, "Failed to update\n")))
    ∧ (handler rpcConfig updateFails (payloadText "bare")).calls
        = [(Call.rpcCommand "127.0.0.1:5555" "stop" "web", none),
           (Call.runCommand "bare" "/srv/bare" "git pull origin master", some "exit status 1"),
           (Call.rpcCommand "127.0.0.1:5555" "start" "web", none)]
    ∧ response (handler rpcConfig updateFails (payloadText "bare"))
        = (400, "Failed to update\n") :=
  ⟨c5_all_empty_runs_default_update rpcConfig updateFails (payloadText "bare")
     { PusherName := "", RepositoryName := "bare" } bareApp (by decide) (by decide)
     rfl rfl rfl rfl (fun _ _ => by decide),
   by decide, by decide⟩

/-! ## The result of `start` -/

/-- The stage loop consults the world only through `run` and `windows`. -/
theorem runStages_congr (W₁ W₂ : World) (hw : W₁.windows = W₂.windows) (hrun : W₁.run = W₂.run)
    (name path : String) :
    ∀ (cmds : List (String × String)) (s : State),
      runStages W₁ name path cmds s = runStages W₂ name path cmds s := by
  intro cmds
  induction cmds with
  | nil => intro s; rfl
  | cons tc rest ih =>
    intro s
    obtain ⟨task, command⟩ := tc
    have hrc : ∀ s', runCommand W₁ s' name path command = runCommand W₂ s' name path command := by
      intro s'
      simp only [runCommand, hw, hrun]
    simp only [runStages, hrc, ih]

/-- The first `stop` call consults the world only through `dial` and `call` on the empty
history. -/
theorem stop_congr (W₁ W₂ : World) (hdial : W₁.dial [] = W₂.dial [])
    (hcall : W₁.call [] "Goreman.Stop" = W₂.call [] "Goreman.Stop") (server proc : String) :
    rpcCommand W₁ State.init server "stop" proc = rpcCommand W₂ State.init server "stop" proc := by
  have h1 : State.init.calls = [] := rfl
  have h2 : ¬ ("stop" = "start") := by decide
  simp only [rpcCommand, h1, hdial, hcall, h2, if_false, if_true]

/-- Claim C9: two runs on the same request whose worlds agree on the decoder, on every
stage command and on the `stop` call, and so differ at most in what `start` returns, give
the same response (status and body), the same `runCommand` records and the same value of
`succeeded`. -/
theorem c9_start_result_not_observable (c : config) (W₁ W₂ : World) (fv : String)
    (hu : W₁.unmarshal = W₂.unmarshal) (hw : W₁.windows = W₂.windows)
    (hrun : W₁.run = W₂.run) (hdial : W₁.dial [] = W₂.dial [])
    (hcall : W₁.call [] "Goreman.Stop" = W₂.call [] "Goreman.Stop") :
    response (handler c W₁ fv) = response (handler c W₂ fv)
      ∧ runRecords (handler c W₁ fv).calls = runRecords (handler c W₂ fv).calls
      ∧ (handler c W₁ fv).succeeded = (handler c W₂ fv).succeeded := by
  cases hp : W₁.unmarshal fv with
  | none =>
    have hp' : W₂.unmarshal fv = none := by rw [← hu]; exact hp
    have h₁ : handler c W₁ fv = writeOK State.init := by simp only [handler, hp]
    have h₂ : handler c W₂ fv = writeOK State.init := by simp only [handler, hp']
    rw [h₁, h₂]
    exact ⟨rfl, rfl, rfl⟩
  | some p =>
    have hp' : W₂.unmarshal fv = some p := by rw [← hu]; exact hp
    cases ha : c.Apps p.RepositoryName with
    | none =>
      have h₁ : handler c W₁ fv = writeOK State.init := by simp only [handler, hp, ha]
      have h₂ : handler c W₂ fv = writeOK State.init := by simp only [handler, hp', ha]
      rw [h₁, h₂]
      exact ⟨rfl, rfl, rfl⟩
    | some app =>
      have hst := stop_congr W₁ W₂ hdial hcall c.RPC app.Proc
      have hloop := runStages_congr W₁ W₂ hw hrun p.RepositoryName app.Path (commands app)
      rcases stop_cases c W₁ app with hstop | ⟨hrpc, hproc, e, he⟩
      · have hstop' : c.RPC ≠ "" → app.Proc ≠ "" →
            (rpcCommand W₂ State.init c.RPC "stop" app.Proc).1 = none := by
          rw [← hst]; exact hstop
        rw [handler_running c W₁ fv p app hp ha hstop,
          handler_running c W₂ fv p app hp' ha hstop', ← hst]
        refine ⟨?_, ?_, ?_⟩
        · rw [afterStop_response, afterStop_response, hloop]
        · rw [afterStop_calls, afterStop_calls, runRecords_append, runRecords_append, hloop]
          by_cases hb : c.RPC ≠ "" ∧ app.Proc ≠ ""
          · simp only [if_pos hb]; rfl
          · simp only [if_neg hb]
        · rw [afterStop_succeeded, afterStop_succeeded, hloop]
      · have he' : (rpcCommand W₂ State.init c.RPC "stop" app.Proc).1 = some e := by
          rw [← hst]; exact he
        rw [handler_stop_failed c W₁ fv p app e hp ha hrpc hproc he,
          handler_stop_failed c W₂ fv p app e hp' ha hrpc hproc he', hst]
        exact ⟨rfl, rfl, rfl⟩

/-- The worlds `okWorld` and `startFails` differ only in the result of `start`, which
shows in the last record of the run of `web`, build failing or not; the response and
the `runCommand` records are the same. -/
theorem c9_start_result_not_observable_witness :
    (response (handler rpcConfig okWorld (payloadText "web"))
        = response (handler rpcConfig startFails (payloadText "web"))
      ∧ runRecords (handler rpcConfig okWorld (payloadText "web")).calls
        = runRecords (handler rpcConfig startFails (payloadText "web")).calls
      ∧ (handler rpcConfig okWorld (payloadText "web")).succeeded
        = (handler rpcConfig startFails (payloadText "web")).succeeded)
    ∧ (handler rpcConfig okWorld (payloadText "web")).calls.getLast?
        = some (Call.rpcCommand "127.0.0.1:5555" "start" "web", none)
    ∧ (handler rpcConfig startFails (payloadText "web")).calls.getLast?
        = some (Call.rpcCommand "127.0.0.1:5555" "start" "web", some "already running")
    ∧ response (handler rpcConfig startFails (payloadText "web")) = (200, "OK") :=
  ⟨c9_start_result_not_observable rpcConfig okWorld startFails (payloadText "web")
     rfl rfl rfl rfl (funext fun _ => rfl),
   by decide, by decide, by decide⟩

/-! ## Runs without bracketing -/

/-- The stage loop run behind one more completed invocation `r`, in a world whose stage
commands answer behind `r` as those of `W` answer without it, does what the loop in `W`
does: the same records after `r`, the same `succeeded`, the same response writer. -/
theorem runStages_shift (W W' : World) (r : Record) (hw : W'.windows = W.windows)
    (hrun : ∀ h d a, W'.run (r :: h) d a = W.run h d a) (name path : String) :
    ∀ (cmds : List (String × String)) (s s' : State),
      s'.calls = r :: s.calls → s'.succeeded = s.succeeded → s'.status = s.status →
      s'.body = s.body →
      (runStages W' name path cmds s').calls = r :: (runStages W name path cmds s).calls
        ∧ (runStages W' name path cmds s').succeeded = (runStages W name path cmds s).succeeded
        ∧ (runStages W' name path cmds s').status = (runStages W name path cmds s).status
        ∧ (runStages W' name path cmds s').body = (runStages W name path cmds s).body := by
  intro cmds
  induction cmds with
  | nil => intro s s' h1 h2 h3 h4; exact ⟨h1, h2, h3, h4⟩
  | cons tc rest ih =>
    intro s s' h1 h2 h3 h4
    obtain ⟨task, command⟩ := tc
    by_cases hc : command = ""
    · simp only [runStages, hc, ne_eq, not_true_eq_false, if_false]
      exact ih s s' h1 h2 h3 h4
    · simp only [runStages, ne_eq, hc, not_false_eq_true, if_true]
      have herr : (runCommand W' (logPrintf s' (name ++ ": " ++ command ++ "\n"))
            name path command).1
          = (runCommand W (logPrintf s (name ++ ": " ++ command ++ "\n"))
            name path command).1 := by
        simp only [runCommand, logPrintf_calls, h1, hw, hrun]
      rcases hr : runCommand W (logPrintf s (name ++ ": " ++ command ++ "\n")) name path command
        with ⟨err, t⟩
      rcases hr' : runCommand W' (logPrintf s' (name ++ ": " ++ command ++ "\n"))
        name path command with ⟨err', t'⟩
      have ht : t = (runCommand W (logPrintf s (name ++ ": " ++ command ++ "\n"))
          name path command).2 := by rw [hr]
      have ht' : t' = (runCommand W' (logPrintf s' (name ++ ": " ++ command ++ "\n"))
          name path command).2 := by rw [hr']
      have he : err = (runCommand W (logPrintf s (name ++ ": " ++ command ++ "\n"))
          name path command).1 := by rw [hr]
      have he' : err' = err := by rw [he, ← herr, hr']
      subst he'
      have hcalls : t'.calls = r :: t.calls := by
        rw [ht, ht', runCommand_calls, runCommand_calls, herr, logPrintf_calls,
          logPrintf_calls, h1]
        rfl
      have hstatus : t'.status = t.status := by
        rw [ht, ht', runCommand_status, runCommand_status, logPrintf_status,
          logPrintf_status, h3]
      have hbody : t'.body = t.body := by
        rw [ht, ht', runCommand_body, runCommand_body, logPrintf_body, logPrintf_body, h4]
      cases err' with
      | some e =>
        have hsucc : t'.succeeded = t.succeeded := by
          rw [ht, ht', runCommand_succeeded, runCommand_succeeded, logPrintf_succeeded,
            logPrintf_succeeded, h2]
        simp only [httpError_calls, httpError_succeeded, httpError_status, httpError_body,
          logPrintf_calls, logPrintf_succeeded, logPrintf_status, logPrintf_body, hcalls,
          hstatus, hbody, hsucc, and_self]
      | none => exact ih _ _ hcalls rfl hstatus hbody

/-- Claim C10: a resolved run whose configuration has an empty controller address or
whose application has an empty process name makes no `rpcCommand` call at all, and its
`runCommand` records and its response are those of the run of the same application with
bracketing configured, `stop` succeeding and the stage commands answering alike, whatever
`start` returns there (in particular when it succeeds). -/
theorem c10_unbracketed_run (c c' : config) (W W' : World) (fv : String) (p : payload)
    (app app' : App)
    (hp : W.unmarshal fv = some p) (hp' : W'.unmarshal fv = some p)
    (ha : c.Apps p.RepositoryName = some app) (ha' : c'.Apps p.RepositoryName = some app')
    (hno : c.RPC = "" ∨ app.Proc = "")
    (hyes : c'.RPC ≠ "" ∧ app'.Proc ≠ "")
    (hpath : app'.Path = app.Path) (hu : app'.UpdateCommand = app.UpdateCommand)
    (hb : app'.BuildCommand = app.BuildCommand) (ht : app'.TestCommand = app.TestCommand)
    (hr : app'.ReleaseCommand = app.ReleaseCommand)
    (hstop : (rpcCommand W' State.init c'.RPC "stop" app'.Proc).1 = none)
    (hw : W'.windows = W.windows)
    (hrun : ∀ h d a,
      W'.run ((Call.rpcCommand c'.RPC "stop" app'.Proc, none) :: h) d a = W.run h d a) :
    rpcRecords (handler c W fv).calls = []
      ∧ runRecords (handler c W fv).calls = runRecords (handler c' W' fv).calls
      ∧ response (handler c W fv) = response (handler c' W' fv) := by
  have hnb : ¬ (c.RPC ≠ "" ∧ app.Proc ≠ "") := by
    rintro ⟨h1, h2⟩
    rcases hno with h | h
    · exact h1 h
    · exact h2 h
  have hvac : c.RPC ≠ "" → app.Proc ≠ "" →
      (rpcCommand W State.init c.RPC "stop" app.Proc).1 = none :=
    fun h1 h2 => absurd ⟨h1, h2⟩ hnb
  have hcmds : commands app' = commands app := by
    simp only [commands, updateCommand, hu, hb, ht, hr]
  have hinit : (rpcCommand W' State.init c'.RPC "stop" app'.Proc).2.calls
      = (Call.rpcCommand c'.RPC "stop" app'.Proc, none) :: State.init.calls := by
    rw [rpcCommand_calls, hstop]; rfl
  obtain ⟨k1, k2, k3, k4⟩ := runStages_shift W W' (Call.rpcCommand c'.RPC "stop" app'.Proc, none)
    hw hrun p.RepositoryName app.Path (commands app) State.init
    (rpcCommand W' State.init c'.RPC "stop" app'.Proc).2 hinit rfl rfl rfl
  refine ⟨?_, ?_, ?_⟩
  · obtain ⟨r, hr⟩ := (handler_running_shape c W fv p app hp ha hvac).2
    rw [hr, if_neg hnb]
  · rw [handler_running c W fv p app hp ha hvac,
      handler_running c' W' fv p app' hp' ha' (fun _ _ => hstop),
      afterStop_calls, afterStop_calls, if_neg hnb, if_neg hnb, if_pos hyes, if_pos hyes,
      hpath, hcmds, runRecords_append, runRecords_append, k1]
    rfl
  · rw [handler_running c W fv p app hp ha hvac,
      handler_running c' W' fv p app' hp' ha' (fun _ _ => hstop),
      afterStop_response, afterStop_response, if_neg hnb, if_pos hyes,
      hpath, hcmds, writeOK_response, writeOK_response, k2, k3, k4]

/-- The application `web` under a configuration without controller address against the
same application under one with it, the build failing in both: no controller call in the
first run, `stop` and `start` around the stages in the second, and the same stage records
and response. -/
theorem c10_unbracketed_run_witness :
    (rpcRecords (handler plainConfig buildFails (payloadText "web")).calls = []
      ∧ runRecords (handler plainConfig buildFails (payloadText "web")).calls
          = runRecords (handler rpcConfig buildFails (payloadText "web")).calls
      ∧ response (handler plainConfig buildFails (payloadText "web"))
          = response (handler rpcConfig buildFails (payloadText "web")))
    ∧ (handler plainConfig buildFails (payloadText "web")).calls
        = [(Call.runCommand "web" "/srv/demo" "git pull origin master", none),
           (Call.runCommand "web" "/srv/demo" "make", some "exit status 2")]
    ∧ (handler rpcConfig buildFails (payloadText "web")).calls
        = [(Call.rpcCommand "127.0.0.1:5555" "stop" "web", none),
           (Call.runCommand "web" "/srv/demo" "git pull origin master", none),
           (Call.runCommand "web" "/srv/demo" "make", some "exit status 2"),
           (Call.rpcCommand "127.0.0.1:5555" "start" "web", none)] :=
  ⟨c10_unbracketed_run plainConfig rpcConfig buildFails buildFails (payloadText "web")
     { PusherName := "", RepositoryName := "web" } webApp webApp
     (by decide) (by decide) (by decide) (by decide) (Or.inl rfl) (by decide)
     rfl rfl rfl rfl rfl (by decide) rfl (fun _ _ _ => rfl),
   by decide, by decide⟩

/-! ## The response of a run with a failing stage -/

/-- A resolved run in which a `runCommand` invocation failed answers with status 400; the
body is the line `Failed to <stage>` of the failing stage, followed by `OK` exactly when
a stage before it returned `nil`. -/
theorem stage_failure_response (c : config) (W : World) (fv : String) (p : payload)
    (app : App) (n d cmd e : String)
    (hp : W.unmarshal fv = some p) (ha : c.Apps p.RepositoryName = some app)
    (hfail : (Call.runCommand n d cmd, some e) ∈ (handler c W fv).calls) :
    ∃ ok task more, attempted (commands app) = ok ++ (task, cmd) :: more
      ∧ response (handler c W fv)
          = (400, "Failed to " ++ task ++ "\n" ++ if ok.isEmpty then "" else "OK") := by
  rcases stop_cases c W app with hstop | ⟨hrpc, hproc, e', he⟩
  · rw [run_mem_iff] at hfail
    cases (handler_running_shape c W fv p app hp ha hstop).1 with
    | allOk h1 _ _ =>
      rw [h1] at hfail
      obtain ⟨tc, _, htc⟩ := List.mem_map.1 hfail
      exact absurd (congrArg Prod.snd htc) (by simp [okRecord])
    | failed ok task command e₁ more h0 h1 _ h3 =>
      rw [h1] at hfail
      rcases List.mem_append.1 hfail with h | h
      · obtain ⟨tc, _, htc⟩ := List.mem_map.1 h
        exact absurd (congrArg Prod.snd htc) (by simp [okRecord])
      · rw [List.mem_singleton] at h
        have hcmd : cmd = command := by
          have := congrArg Prod.fst h
          simp only [Call.runCommand.injEq] at this
          exact this.2.2
        subst hcmd
        exact ⟨ok, task, more, h0, h3⟩
  · rw [handler_stop_failed c W fv p app e' hp ha hrpc hproc he, logPrintf_calls,
      rpcCommand_calls, he] at hfail
    simp [State.init] at hfail

end Gost
